import Mathlib

/-!
Verification of the scan → estimate → cost → retry-generate core of
AI Context Studio against its specification.

Embedding conventions, used consistently below:
* Python `str` is Lean `String` (a sequence of Unicode code points); `len`
  is `String.length`.  Character-level processing works on `String.data`.
* Python `float` arithmetic is embedded as exact rational arithmetic (`ℚ`);
  `int(x)` is truncation toward zero (`pyInt`), `//` on naturals is `Nat`
  division.  Machine floats differ from ℚ only by rounding noise, which the
  source treats as irrelevant (all ratios and prices are small decimals).
* Python `dict` literals whose keys form a closed enumeration are embedded
  as total functions from the key type; `dict.get k default` on such a
  dictionary always finds the key, the default being dead code kept in the
  embedding where the source has it.
* Wall-clock timestamps (`datetime.now().isoformat()`) are threaded through
  as an explicit `String` parameter where a definition records them;
  elapsed-time fields (pure wall-clock measurements) are omitted.
* `Optional[T]` is `Option T`, exceptions are `Except`, and the outside
  world (file contents, the remote generation call, the shared cancellation
  flag) enters as explicit oracle parameters.
-/

/-! ## Python character and string helpers -/

/-- ASCII approximation of Python `str.isspace` / regex `\s` (the source only
ever feeds it source-code text, where whitespace is ASCII). -/
def isPySpace (c : Char) : Bool :=
  c == ' ' || c == '\t' || c == '\n' || c == '\r' || c == '\x0b' || c == '\x0c'

/-- Python `str.strip()` on a list of characters. -/
def pyStrip (s : List Char) : List Char :=
  ((s.dropWhile isPySpace).reverse.dropWhile isPySpace).reverse

/-- Python `str.lower()` on one character: ASCII case folding plus the accented
capitals that occur in the source's Italian word list. -/
def pyLowerChar (c : Char) : Char :=
  if c == 'É' then 'é' else if c == 'È' then 'è' else if c == 'À' then 'à'
  else if c == 'Ì' then 'ì' else if c == 'Ò' then 'ò' else if c == 'Ù' then 'ù'
  else c.toLower

/-- Python `str.lower()` on a list of characters. -/
def pyLower (s : List Char) : List Char := s.map pyLowerChar

/-- Decidable list-prefix test (avoids classical `IsPrefix`). -/
def listPfx : List Char → List Char → Bool
  | [], _ => true
  | _ :: _, [] => false
  | a :: as, b :: bs => a == b && listPfx as bs

/-- Python substring containment `needle in hay` on characters. -/
def listInfix (needle : List Char) : List Char → Bool
  | [] => listPfx needle []
  | s@(_ :: rest) => listPfx needle s || listInfix needle rest

/-- Python `int(q)` for a rational `q`: truncation toward zero. -/
def pyInt (q : ℚ) : ℤ := if 0 ≤ q then ⌊q⌋ else ⌈q⌉

/-- `pathlib.PurePath.suffix` of a bare file name, lowercased
(`Path(entry.name).suffix.lower()`): the final dot-suffix, empty when the
only dot is the leading or the trailing character. -/
def pySuffix (name : String) : String :=
  match (name.data.reverse.span (fun c => !(c == '.'))) with
  | (tail, rest) =>
    match rest with
    | [] => ""
    | _ :: before =>
      if tail.isEmpty || before.isEmpty then ""
      else ⟨'.' :: pyLower tail.reverse⟩

/-! ## Content classification (`TokenEstimator.detect_content_type`)

The classifier runs fixed regular expressions over a bounded sample and asks
`json.loads` whether the whole text parses.  Each fixed pattern is compiled
by hand into a small token matcher; a fuel-indexed recursive-descent parser
embeds `json.loads`'s grammar (JSON values plus the `NaN` / `Infinity` /
`-Infinity` extensions Python accepts by default). -/

/-- JSON structural whitespace (the four characters `json` skips). -/
def jsonWs (c : Char) : Bool := c == ' ' || c == '\t' || c == '\n' || c == '\r'

/-- Drop leading JSON whitespace. -/
def skipWs (s : List Char) : List Char := s.dropWhile jsonWs

/-- Hexadecimal digit test for `\uXXXX` escapes. -/
def isHexDig (c : Char) : Bool :=
  c.isDigit || ('a' ≤ c && c ≤ 'f') || ('A' ≤ c && c ≤ 'F')

/-- Parse the body of a JSON string after the opening quote, returning the
remaining input after the closing quote: strict mode, so unescaped control
characters and unknown escapes are refused. -/
def parseStringBody : List Char → Option (List Char)
  | [] => none
  | c :: rest =>
    if c == '"' then some rest
    else if c == '\\' then
      match rest with
      | [] => none
      | e :: rest2 =>
        if e == '"' || e == '\\' || e == '/' || e == 'b' || e == 'f'
            || e == 'n' || e == 'r' || e == 't' then
          parseStringBody rest2
        else if e == 'u' then
          match rest2 with
          | h1 :: h2 :: h3 :: h4 :: rest3 =>
            if isHexDig h1 && isHexDig h2 && isHexDig h3 && isHexDig h4 then
              parseStringBody rest3
            else none
          | _ => none
        else none
    else if c.val < 32 then none
    else parseStringBody rest
termination_by s => s.length
decreasing_by all_goals simp_all <;> omega

/-- Consume an optional JSON fraction part `(\.\d+)?`. -/
def parseFrac (s : List Char) : List Char :=
  match s with
  | '.' :: d :: rest => if d.isDigit then rest.dropWhile Char.isDigit else s
  | _ => s

/-- Consume an optional JSON exponent part `([eE][-+]?\d+)?`. -/
def parseExp (s : List Char) : List Char :=
  match s with
  | e :: rest =>
    if e == 'e' || e == 'E' then
      match rest with
      | sg :: rest2 =>
        if sg == '+' || sg == '-' then
          match rest2 with
          | d :: rest3 => if d.isDigit then rest3.dropWhile Char.isDigit else s
          | [] => s
        else if sg.isDigit then rest.dropWhile Char.isDigit
        else s
      | [] => s
    else s
  | [] => s

/-- Parse a JSON number `-?(0|[1-9]\d*)(\.\d+)?([eE][-+]?\d+)?` (maximal
munch, as Python's NUMBER_RE does). -/
def parseNumber (s : List Char) : Option (List Char) :=
  let core : List Char → Option (List Char) := fun t =>
    match t with
    | '0' :: rest => some (parseExp (parseFrac rest))
    | c :: rest =>
      if c.isDigit then some (parseExp (parseFrac (rest.dropWhile Char.isDigit)))
      else none
    | [] => none
  match s with
  | '-' :: rest => core rest
  | _ => core s

/-- Strip a literal keyword when it is a prefix of the input. -/
def stripKw (kw : List Char) (s : List Char) : Option (List Char) :=
  if listPfx kw s then some (s.drop kw.length) else none

mutual
/-- One JSON value (with Python's `NaN`/`Infinity`/`-Infinity` extensions),
returning the unconsumed input.  Fuel bounds the nesting depth; each nesting
level consumes at least one character, so `length + 1` fuel is enough. -/
def parseValue : ℕ → List Char → Option (List Char)
  | 0, _ => none
  | f + 1, s =>
    match s with
    | [] => none
    | '{' :: rest =>
      match skipWs rest with
      | '}' :: r2 => some r2
      | r2 => parseMembers f r2
    | '[' :: rest =>
      match skipWs rest with
      | ']' :: r2 => some r2
      | r2 => parseElements f r2
    | '"' :: rest => parseStringBody rest
    | _ =>
      match stripKw ("null".data) s with
      | some r => some r
      | none =>
        match stripKw ("true".data) s with
        | some r => some r
        | none =>
          match stripKw ("false".data) s with
          | some r => some r
          | none =>
            match stripKw ("NaN".data) s with
            | some r => some r
            | none =>
              match stripKw ("Infinity".data) s with
              | some r => some r
              | none =>
                match stripKw ("-Infinity".data) s with
                | some r => some r
                | none => parseNumber s

/-- The members of a JSON object after its opening brace (non-empty case),
returning the input after the closing brace. -/
def parseMembers : ℕ → List Char → Option (List Char)
  | 0, _ => none
  | f + 1, s =>
    match s with
    | '"' :: rest =>
      match parseStringBody rest with
      | none => none
      | some s1 =>
        match skipWs s1 with
        | ':' :: s2 =>
          match parseValue f (skipWs s2) with
          | none => none
          | some s3 =>
            match skipWs s3 with
            | ',' :: s4 => parseMembers f (skipWs s4)
            | '}' :: s4 => some s4
            | _ => none
        | _ => none
    | _ => none

/-- The elements of a JSON array after its opening bracket (non-empty case),
returning the input after the closing bracket. -/
def parseElements : ℕ → List Char → Option (List Char)
  | 0, _ => none
  | f + 1, s =>
    match parseValue f s with
    | none => none
    | some s1 =>
      match skipWs s1 with
      | ',' :: s2 => parseElements f (skipWs s2)
      | ']' :: s2 => some s2
      | _ => none
end

/-- Whether `json.loads(text)` succeeds: one value, then only whitespace. -/
def jsonValid (text : String) : Bool :=
  match parseValue (text.data.length + 1) (skipWs text.data) with
  | some rest => (skipWs rest).isEmpty
  | none => false

/-- Character classes appearing in the source's fixed regular expressions.
`word` is regex `\w`, `worddot` is the class `[\w.]`, restricted (like
`isWordChar` below) to the ASCII interpretation. -/
inductive CClass : Type where
  | ws | word | worddot | digit | hash
deriving DecidableEq, Repr

/-- Membership test of a character class. -/
def CClass.test : CClass → Char → Bool
  | .ws, c => isPySpace c
  | .word, c => c.isAlphanum || c == '_'
  | .worddot, c => c.isAlphanum || c == '_' || c == '.'
  | .digit, c => c.isDigit
  | .hash, c => c == '#'

/-- One element of a hand-compiled regular expression: a literal character,
or one / one-or-more / zero-or-more characters of a class. -/
inductive Tok : Type where
  | lit (c : Char)
  | one (cl : CClass)
  | plus (cl : CClass)
  | star (cl : CClass)

/-- Match a compiled pattern at the head of the input, maximal munch.  For
every pattern below, each `plus`/`star` class is disjoint from whatever can
follow it in the pattern, so greedy matching with no backtracking is exactly
the regex semantics. -/
def matchToks : List Tok → List Char → Bool
  | [], _ => true
  | .lit c :: ts, d :: s => c == d && matchToks ts s
  | .lit _ :: _, [] => false
  | .one cl :: ts, d :: s => cl.test d && matchToks ts s
  | .one _ :: _, [] => false
  | .plus cl :: ts, s =>
    let p := s.span cl.test
    !p.1.isEmpty && matchToks ts p.2
  | .star cl :: ts, s => matchToks ts (s.dropWhile cl.test)

/-- `re.search` for a compiled pattern: a match starting at some position. -/
def searchToks (p : List Tok) : List Char → Bool
  | [] => matchToks p []
  | s@(_ :: rest) => matchToks p s || searchToks p rest

/-- A literal string as a pattern fragment. -/
def litT (s : String) : List Tok := s.data.map Tok.lit

/-- The source's nine code-shape patterns (`code_patterns` in
`detect_content_type`), hand-compiled. -/
def codePatterns : List (List Tok) :=
  [litT "def" ++ [.plus .ws, .plus .word, .star .ws, .lit '('],
   litT "function" ++ [.plus .ws, .plus .word, .star .ws, .lit '('],
   litT "class" ++ [.plus .ws, .plus .word],
   litT "import" ++ [.plus .ws, .plus .worddot],
   litT "const" ++ [.plus .ws, .plus .word, .star .ws, .lit '='],
   litT "let" ++ [.plus .ws, .plus .word, .star .ws, .lit '='],
   litT "public" ++ [.plus .ws, .plus .word, .plus .ws, .plus .word, .star .ws, .lit '('],
   litT "#include" ++ [.star .ws, .lit '<'],
   litT "fn" ++ [.plus .ws, .plus .word, .star .ws, .lit '(']]

/-- How many code patterns match the sample. -/
def codeCount (sample : List Char) : ℕ :=
  (codePatterns.filter (fun p => searchToks p sample)).length

/-- `re.search` with `re.MULTILINE` for a `^`-anchored pattern: a match at the
start of the string or directly after a newline. -/
def searchAnchored (p : List Tok) : List Char → Bool
  | [] => matchToks p []
  | c :: rest => (c == '\n' && matchToks p rest) || matchToks p (c :: rest) || searchAnchored p rest

/-- Split on newline characters (for patterns whose `.` cannot cross lines). -/
def splitNl : List Char → List (List Char)
  | [] => [[]]
  | '\n' :: rest => [] :: splitNl rest
  | c :: rest =>
    match splitNl rest with
    | [] => [[c]]
    | l :: ls => (c :: l) :: ls

/-- After a `[`, the pattern `.*\]\(.*\)` within one line: a later `](` with
a still later `)`. -/
def linkAfterLb : List Char → Bool
  | [] => false
  | ']' :: '(' :: rest => rest.contains ')'
  | _ :: rest => linkAfterLb rest

/-- One line matching `\[.*\]\(.*\)` (every element of that pattern refuses
newlines, so a match lies within a single line; existence is monotone, so the
leftmost `[` and the leftmost following `](` suffice). -/
def lineHasLink (l : List Char) : Bool :=
  match l.dropWhile (fun c => !(c == '[')) with
  | _ :: rest => linkAfterLb rest
  | [] => false

/-- `re.search(r'\[.*\]\(.*\)', sample)`. -/
def mdLink (s : List Char) : Bool := (splitNl s).any lineHasLink

/-- How many of the source's five markdown patterns match the sample:
`^#+\s`, `^\*\s`, `^\d+\.\s` (multiline-anchored), a fenced-block opener, and
an inline link. -/
def mdCount (sample : List Char) : ℕ :=
  (if searchAnchored [Tok.plus .hash, Tok.one .ws] sample then 1 else 0)
  + (if searchAnchored [Tok.lit '*', Tok.one .ws] sample then 1 else 0)
  + (if searchAnchored [Tok.plus .digit, Tok.lit '.', Tok.one .ws] sample then 1 else 0)
  + (if searchToks (litT "```") sample then 1 else 0)
  + (if mdLink sample then 1 else 0)

/-- The source's Italian stop-word list. -/
def italianWords : List String :=
  ["che", "della", "nella", "sono", "questo", "perché", "quando", "anche"]

/-- Regex `\w` as used for `\b` boundaries (ASCII interpretation). -/
def isWordChar (c : Char) : Bool := c.isAlphanum || c == '_'

/-- A word-boundary position given the preceding character, if any. -/
def boundaryOk (prev : Option Char) : Bool :=
  match prev with
  | some c => !isWordChar c
  | none => true

/-- `\b w \b` matching at the head of `s`, `prev` being the character before. -/
def wordHere (w : List Char) (prev : Option Char) (s : List Char) : Bool :=
  boundaryOk prev && listPfx w s &&
    (match s.drop w.length with
     | [] => true
     | c :: _ => !isWordChar c)

/-- `re.search(rf'\b{w}\b', s)`, threading the previous character. -/
def searchWord (w : List Char) : Option Char → List Char → Bool
  | prev, [] => wordHere w prev []
  | prev, s@(c :: rest) => wordHere w prev s || searchWord w (some c) rest

/-- How many Italian stop-words occur as whole words in the lowered sample. -/
def italianCount (sample : List Char) : ℕ :=
  (italianWords.filter (fun w => searchWord w.data none (pyLower sample))).length

/-- The content families of `ContentType` in `token_estimator.py`. -/
inductive ContentType : Type where
  | code | prose_en | prose_it | mixed | json | markdown
deriving DecidableEq, Repr

/-- The `.value` string of a `ContentType` member. -/
def ContentType.val : ContentType → String
  | .code => "code"
  | .prose_en => "prose_en"
  | .prose_it => "prose_it"
  | .mixed => "mixed"
  | .json => "json"
  | .markdown => "markdown"

/-- `TokenEstimator.detect_content_type`: JSON, then code shapes, then
markdown shapes, then Italian stop-words, else mixed; only the first 2000
characters are sampled, but the JSON parse runs over the whole text. -/
def detect_content_type (text : String) : ContentType :=
  if text.isEmpty then ContentType.mixed
  else
    let sample := text.data.take 2000
    let stripped := pyStrip sample
    if (stripped.head? == some '{' || stripped.head? == some '[') && jsonValid text then
      ContentType.json
    else if 2 ≤ codeCount sample then ContentType.code
    else if 2 ≤ mdCount sample then ContentType.markdown
    else if 3 ≤ italianCount sample then ContentType.prose_it
    else ContentType.mixed

/-- `TokenEstimator.CHAR_RATIOS`, a dictionary over the whole enumeration,
embedded as a total function. -/
def CHAR_RATIOS : ContentType → ℚ
  | .code => 3.8
  | .prose_en => 4.0
  | .prose_it => 4.2
  | .mixed => 4.0
  | .json => 3.5
  | .markdown => 4.0

/-- `TokenEstimator.DEFAULT_RATIO` (the `.get` fallback; every member is a
key of `CHAR_RATIOS`, so it is never consulted). -/
def DEFAULT_RATIO_val : ℚ := 4.0

/-- `TokenEstimator.estimate_tokens`: zero for empty text, else
`int(len(text) / ratio)` with the ratio of the supplied or detected family. -/
def estimate_tokens (text : String) (content_type : Option ContentType) : ℤ :=
  if text.isEmpty then 0
  else
    let ct :=
      match content_type with
      | some c => c
      | none => detect_content_type text
    pyInt ((text.length : ℚ) / CHAR_RATIOS ct)

/-- `TokenEstimator.estimate_output_tokens`: `int(input_tokens * multiplier)`;
the source's default multiplier is `1.5`. -/
def estimate_output_tokens (input_tokens : ℤ) (multiplier : ℚ) : ℤ :=
  pyInt ((input_tokens : ℚ) * multiplier)

/-! ## Model registry and cost calculation (`token_estimator.py`) -/

/-- The `Currency` enumeration. -/
inductive Currency : Type where
  | USD | EUR | GBP | JPY
deriving DecidableEq, Repr

/-- The `.value` string of a `Currency` member. -/
def Currency.val : Currency → String
  | .USD => "USD"
  | .EUR => "EUR"
  | .GBP => "GBP"
  | .JPY => "JPY"

/-- `ModelRegistry.DEFAULT_EXCHANGE_RATES` (USD → target); a dictionary over
the whole enumeration, embedded with `Option` to keep `.get`'s fallback. -/
def DEFAULT_EXCHANGE_RATES : Currency → Option ℚ
  | .USD => some 1.0
  | .EUR => some 0.92
  | .GBP => some 0.79
  | .JPY => some 149.50

/-- `ModelPricing` (prices in USD per million tokens). -/
structure ModelPricing : Type where
  model_id : String
  display_name : String
  input_price_per_million : ℚ
  output_price_per_million : ℚ
  context_window : ℕ
  is_active : Bool
deriving DecidableEq, Repr

/-- `ModelPricing.input_price_per_token`. -/
def ModelPricing.input_price_per_token (m : ModelPricing) : ℚ :=
  m.input_price_per_million / 1000000

/-- `ModelPricing.output_price_per_token`. -/
def ModelPricing.output_price_per_token (m : ModelPricing) : ℚ :=
  m.output_price_per_million / 1000000

/-- `ModelRegistry.MODELS`, in insertion order (a Python dict preserves it,
and the substring-fallback loop iterates in that order). -/
def MODELS : List (String × ModelPricing) :=
  [("gemini-2.0-flash",
    ⟨"gemini-2.0-flash", "Gemini 2.0 Flash", 0.075, 0.30, 1048576, true⟩),
   ("gemini-2.0-flash-exp",
    ⟨"gemini-2.0-flash-exp", "Gemini 2.0 Flash Exp", 0.0, 0.0, 1048576, true⟩),
   ("gemini-1.5-flash",
    ⟨"gemini-1.5-flash", "Gemini 1.5 Flash", 0.075, 0.30, 1048576, true⟩),
   ("gemini-1.5-flash-8b",
    ⟨"gemini-1.5-flash-8b", "Gemini 1.5 Flash-8B", 0.0375, 0.15, 1048576, true⟩),
   ("gemini-1.5-pro",
    ⟨"gemini-1.5-pro", "Gemini 1.5 Pro", 3.50, 10.50, 2097152, true⟩),
   ("gemini-2.5-flash-preview-05-20",
    ⟨"gemini-2.5-flash-preview-05-20", "Gemini 2.5 Flash Preview", 0.15, 0.60, 1048576, true⟩),
   ("gemini-1.0-pro",
    ⟨"gemini-1.0-pro", "Gemini 1.0 Pro", 0.50, 1.50, 32768, true⟩)]

/-- `ModelRegistry.DEFAULT_MODEL`. -/
def DEFAULT_MODEL : String := "gemini-1.5-flash"

/-- The registry entry of `DEFAULT_MODEL` (`cls.MODELS[cls.DEFAULT_MODEL]`). -/
def defaultModelPricing : ModelPricing :=
  ⟨"gemini-1.5-flash", "Gemini 1.5 Flash", 0.075, 0.30, 1048576, true⟩

/-- The name cleaning of `ModelRegistry.get_model`:
`model_name.replace("models/", "").lower()`. -/
def cleanModelName (name : String) : String :=
  (name.replace "models/" "").toLower

/-- `ModelRegistry.get_model`: exact key match, then substring match in
either direction in registry order, then the default entry — total. -/
def get_model (model_name : String) : ModelPricing :=
  let clean := cleanModelName model_name
  match MODELS.find? (fun p => p.1 == clean) with
  | some p => p.2
  | none =>
    match MODELS.find? (fun p => listInfix p.1.data clean.data || listInfix clean.data p.1.data) with
    | some p => p.2
    | none => defaultModelPricing

/-- `ModelRegistry.get_exchange_rate`: custom table if given, else the
default table; missing currencies fall back to `1.0`. -/
def get_exchange_rate (target : Currency) (custom : Option (Currency → Option ℚ)) : ℚ :=
  ((custom.getD DEFAULT_EXCHANGE_RATES) target).getD 1.0

/-- `CostEstimate` (the `timestamp` field is the creation time the dataclass
records; it enters the embedding as an explicit parameter). -/
structure CostEstimate : Type where
  input_tokens : ℤ
  output_tokens : ℤ
  total_tokens : ℤ
  input_cost : ℚ
  output_cost : ℚ
  total_cost : ℚ
  currency : Currency
  model_id : String
  model_name : String
  content_type : ContentType
  timestamp : String
deriving DecidableEq, Repr

/-- `CostCalculator`'s constructor state; the source's defaults are
`EUR`, no custom rates, multiplier `1.5`. -/
structure CostCalculator : Type where
  default_currency : Currency
  custom_exchange_rates : Option (Currency → Option ℚ)
  output_multiplier : ℚ

/-- A `CostCalculator()` built with the source's default arguments. -/
def defaultCostCalculator : CostCalculator := ⟨Currency.EUR, none, 1.5⟩

/-- `CostCalculator.calculate_from_tokens` (`now` is the dataclass's
creation timestamp). -/
def calculate_from_tokens (self : CostCalculator) (input_tokens : ℤ)
    (model_name : String) (currency? : Option Currency) (include_output : Bool)
    (now : String) : CostEstimate :=
  let currency := currency?.getD self.default_currency
  let model := get_model model_name
  let output_tokens :=
    if include_output then estimate_output_tokens input_tokens self.output_multiplier else 0
  let input_cost_usd := (input_tokens : ℚ) * model.input_price_per_token
  let output_cost_usd := (output_tokens : ℚ) * model.output_price_per_token
  let total_cost_usd := input_cost_usd + output_cost_usd
  let exchange_rate := get_exchange_rate currency self.custom_exchange_rates
  { input_tokens := input_tokens,
    output_tokens := output_tokens,
    total_tokens := input_tokens + output_tokens,
    input_cost := input_cost_usd * exchange_rate,
    output_cost := output_cost_usd * exchange_rate,
    total_cost := total_cost_usd * exchange_rate,
    currency := currency,
    model_id := model.model_id,
    model_name := model.display_name,
    content_type := ContentType.mixed,
    timestamp := now }

/-! ## Cost history (`CostHistoryManager.add_entry`) -/

/-- `CostHistoryEntry`. -/
structure CostHistoryEntry : Type where
  timestamp : String
  model_id : String
  estimated_tokens : ℤ
  actual_tokens : Option ℤ
  estimated_cost : ℚ
  actual_cost : Option ℚ
  currency : String
  content_type : String
  accuracy_ratio : Option ℚ
deriving DecidableEq, Repr

/-- The entry `CostHistoryManager.add_entry` builds and appends.  The guard
is Python's `if actual_tokens and estimate.total_tokens > 0:`, where both
`None` and `0` are falsy. -/
def add_entry (estimate : CostEstimate) (actual_tokens : Option ℤ)
    (actual_cost : Option ℚ) : CostHistoryEntry :=
  let ratio : Option ℚ :=
    match actual_tokens with
    | some t =>
      if t ≠ 0 ∧ 0 < estimate.total_tokens then
        some ((t : ℚ) / (estimate.total_tokens : ℚ))
      else none
    | none => none
  { timestamp := estimate.timestamp,
    model_id := estimate.model_id,
    estimated_tokens := estimate.total_tokens,
    actual_tokens := actual_tokens,
    estimated_cost := estimate.total_cost,
    actual_cost := actual_cost,
    currency := estimate.currency.val,
    content_type := estimate.content_type.val,
    accuracy_ratio := ratio }

/-- Appending the built entry to the in-memory history list
(`self._history.append(entry)`); persistence is I/O outside the embedding. -/
def add_entry_to (history : List CostHistoryEntry) (estimate : CostEstimate)
    (actual_tokens : Option ℤ) (actual_cost : Option ℚ) : List CostHistoryEntry :=
  history ++ [add_entry estimate actual_tokens actual_cost]

/-! ## Generation types and the retry loop (`models.py`, `api_client.py`) -/

/-- The `GenerationType` enumeration of `models.py` (icons, labels, colors
and descriptions are UI display data, outside the embedding). -/
inductive GenerationType : Type where
  | ARCHITECTURE | RULES | CONTEXT | API_DOCS | TESTING | SECURITY
  | ONBOARDING | DATABASE | DEPLOYMENT | DEPENDENCIES | PERFORMANCE
deriving DecidableEq, Repr

/-- The `filename` member of each `GenerationType`. -/
def GenerationType.filename : GenerationType → String
  | .ARCHITECTURE => "AI_ARCHITECTURE.md"
  | .RULES => "AI_RULES.md"
  | .CONTEXT => "PROJECT_CONTEXT.md"
  | .API_DOCS => "API_DOCUMENTATION.md"
  | .TESTING => "TESTING_GUIDE.md"
  | .SECURITY => "SECURITY_AUDIT.md"
  | .ONBOARDING => "DEVELOPER_ONBOARDING.md"
  | .DATABASE => "DATABASE_SCHEMA.md"
  | .DEPLOYMENT => "DEPLOYMENT_GUIDE.md"
  | .DEPENDENCIES => "DEPENDENCIES_ANALYSIS.md"
  | .PERFORMANCE => "PERFORMANCE_GUIDE.md"

/-- `GenerationResult` of `models.py` (`generation_time`, a wall-clock
measurement, is omitted per the conventions above). -/
structure GenerationResult : Type where
  success : Bool
  doc_type : GenerationType
  content : String
  error_message : String
  tokens_used : ℤ
  retries : ℕ
deriving DecidableEq, Repr

/-- `GeminiAPIClient.MAX_RETRIES`. -/
def MAX_RETRIES : ℕ := 3

/-- `GeminiAPIClient.RETRY_DELAY` (seconds). -/
def RETRY_DELAY : ℕ := 2

/-- Observable steps of one `generate_documentation` run: invoking
`_attempt_generation` with a 0-based attempt index, or `time.sleep(seconds)`. -/
inductive RetryEvent : Type where
  | attemptEv (n : ℕ)
  | sleepEv (seconds : ℕ)
deriving DecidableEq, Repr

/-- One stubbed `_attempt_generation` call: `Except.error e` models a raised
exception with message `e`, `Except.ok r` a returned `GenerationResult`. -/
def attemptFails (res : Except String GenerationResult) : Bool :=
  match res with
  | .error _ => true
  | .ok r => !r.success

/-- The error text `generate_documentation` retains from a failed call:
`str(e)` for an exception, `result.error_message` for an unsuccessful result. -/
def failMsg (res : Except String GenerationResult) : String :=
  match res with
  | .error e => e
  | .ok r => r.error_message

/-- The `for attempt in range(MAX_RETRIES)` loop of
`GeminiAPIClient.generate_documentation`, with the underlying call stubbed by
`f` (indexed by the 0-based attempt number): on a successful result the
attempt index is stored in `retries` and the loop returns; on an exception or
an unsuccessful result the error text is retained and, unless this was the
final allowed attempt, the loop sleeps `RETRY_DELAY * (attempt + 1)` seconds;
exhaustion returns a failure carrying the last error and
`retries = MAX_RETRIES`.  Also returns the sequence of observable events. -/
def genLoop (f : ℕ → Except String GenerationResult) (dt : GenerationType) :
    ℕ → ℕ → String → GenerationResult × List RetryEvent
  | 0, _, lastError =>
    ({ success := false, doc_type := dt, content := "",
       error_message := lastError, tokens_used := 0, retries := MAX_RETRIES }, [])
  | remaining + 1, attempt, lastError =>
    match f attempt with
    | .ok g =>
      if g.success then
        ({ g with retries := attempt }, [RetryEvent.attemptEv attempt])
      else
        let next := genLoop f dt remaining (attempt + 1) g.error_message
        if attempt < MAX_RETRIES - 1 then
          (next.1, RetryEvent.attemptEv attempt ::
            RetryEvent.sleepEv (RETRY_DELAY * (attempt + 1)) :: next.2)
        else
          (next.1, RetryEvent.attemptEv attempt :: next.2)
    | .error e =>
      let next := genLoop f dt remaining (attempt + 1) e
      if attempt < MAX_RETRIES - 1 then
        (next.1, RetryEvent.attemptEv attempt ::
          RetryEvent.sleepEv (RETRY_DELAY * (attempt + 1)) :: next.2)
      else
        (next.1, RetryEvent.attemptEv attempt :: next.2)

/-- `GeminiAPIClient.generate_documentation` with the external call stubbed:
runs the retry loop from attempt 0 with an empty `last_error`. -/
def generate_documentation (f : ℕ → Except String GenerationResult)
    (dt : GenerationType) : GenerationResult × List RetryEvent :=
  genLoop f dt MAX_RETRIES 0 ""

/-! ## Directory scanner (`scanner.py`, `constants.py`)

The filesystem enters as a finite tree of named entries (directory listings
in `os.scandir` order); the shared `threading.Event` cancellation flag enters
as an oracle `cancel : ℕ → Bool` indexed by the number of flag reads made so
far, each read consuming one index — an arbitrary interleaving of a `cancel()`
call is one whose oracle flips from false to true at some index.  Progress
callbacks are modelled by the list of percent values delivered (message
strings carry no logic).  Directory listings and `stat` are assumed to
succeed; the source swallows `OSError` by skipping, which the tree model
represents by the absence of such entries. -/

/-- `SUPPORTED_EXTENSIONS` of `constants.py`. -/
def SUPPORTED_EXTENSIONS : List String :=
  [".py", ".js", ".ts", ".tsx", ".jsx", ".html", ".css", ".scss", ".sass",
   ".json", ".yaml", ".yml", ".toml", ".ini", ".cfg",
   ".java", ".kt", ".scala", ".cpp", ".c", ".h", ".hpp",
   ".go", ".rs", ".rb", ".php", ".swift", ".m",
   ".md", ".rst", ".txt", ".sql", ".graphql", ".proto",
   ".sh", ".bash", ".zsh", ".ps1", ".bat", ".cmd",
   ".xml", ".xsl", ".xslt", ".vue", ".svelte"]

/-- `DEFAULT_IGNORED_DIRS` of `constants.py`. -/
def DEFAULT_IGNORED_DIRS : List String :=
  [".git", ".svn", ".hg", "node_modules", "bower_components",
   "__pycache__", ".pytest_cache", ".mypy_cache",
   "venv", ".venv", "env", ".env", ".idea", ".vscode", ".vs",
   "dist", "build", "out", "target", ".tox", ".nox",
   "htmlcov", ".coverage", "eggs", ".eggs",
   ".terraform", ".serverless", "vendor", "packages"]

/-- `SUPPORTED_EXTENSIONS` of the legacy `config/settings.py` (used by
`core/scanner.py`): the same set minus `.vue` and `.svelte`. -/
def SUPPORTED_EXTENSIONS_legacy : List String :=
  [".py", ".js", ".ts", ".tsx", ".jsx", ".html", ".css", ".scss", ".sass",
   ".json", ".yaml", ".yml", ".toml", ".ini", ".cfg",
   ".java", ".kt", ".scala", ".cpp", ".c", ".h", ".hpp",
   ".go", ".rs", ".rb", ".php", ".swift", ".m",
   ".md", ".rst", ".txt", ".sql", ".graphql", ".proto",
   ".sh", ".bash", ".zsh", ".ps1", ".bat", ".cmd",
   ".xml", ".xsl", ".xslt"]

/-- `DEFAULT_IGNORED_DIRS` of the legacy `config/settings.py` (member for
member the same set as the current one). -/
def DEFAULT_IGNORED_DIRS_legacy : List String := DEFAULT_IGNORED_DIRS

/-- `TOKEN_FACTOR` (characters per token, both `constants.py` and
`config/settings.py`). -/
def TOKEN_FACTOR : ℕ := 4

/-- `MAX_FILE_SIZE` of `constants.py` (the legacy scanner hard-codes the
same `1_000_000`). -/
def MAX_FILE_SIZE : ℕ := 1000000

/-- `MAX_SCAN_DEPTH` of `constants.py` (the legacy scanner hard-codes `20`). -/
def MAX_SCAN_DEPTH : ℕ := 20

/-- The hidden-name allow-list `{'.env.example'}` of both scanners. -/
def HIDDEN_ALLOWED : List String := [".env.example"]

/-- A directory entry is skipped as hidden when its name starts with `.` and
is not allow-listed (`name.startswith('.') and name not in {'.env.example'}`);
the prefix test is spelled on the character list. -/
def isHiddenSkip (name : String) : Bool :=
  listPfx (".".data) name.data && !HIDDEN_ALLOWED.contains name

mutual
/-- A filesystem entry: a file with its byte size, or a directory with its
listing in `os.scandir` order. -/
inductive FSEntry : Type where
  | file (name : String) (size : ℕ)
  | dir (name : String) (children : FSListE)

/-- A directory listing (a mutual list keeps all recursion structural). -/
inductive FSListE : Type where
  | nil
  | cons (e : FSEntry) (rest : FSListE)
end

/-- `FileInfo` of `models.py` (and, field for field, of `core/models.py`).
The absolute `path` is the scan root joined with `relative_path`, so only the
latter is carried; paths are lists of components. -/
structure FileInfo : Type where
  relative_path : List String
  size : ℕ
  extension : String
  included : Bool
deriving DecidableEq, Repr

mutual
/-- `FastFileScanner._scan_dir` of `scanner.py`: one cancellation-flag read
on entering the directory, then the depth guard, then the entries. -/
def scanDirNew (cancel : ℕ → Bool) (pfx : List String) (depth : ℕ)
    (entries : FSListE) (files : List FileInfo) (k : ℕ) : List FileInfo × ℕ :=
  if cancel k then (files, k + 1)
  else if MAX_SCAN_DEPTH < depth then (files, k + 1)
  else scanEntriesNew cancel pfx depth entries files (k + 1)

/-- The entry loop of `_scan_dir` with `_process_entry`/`_process_file`
inlined: a flag read before each entry; hidden names skipped; ignored
directory names skipped, other directories recursed one level deeper;
files kept when the lowercased suffix is supported and the size is within
`MAX_FILE_SIZE`. -/
def scanEntriesNew (cancel : ℕ → Bool) (pfx : List String) (depth : ℕ)
    (entries : FSListE) (files : List FileInfo) (k : ℕ) : List FileInfo × ℕ :=
  match entries with
  | .nil => (files, k)
  | .cons e rest =>
    if cancel k then (files, k + 1)
    else
      match e with
      | .file name size =>
        let files' :=
          if isHiddenSkip name then files
          else
            let ext := pySuffix name
            if SUPPORTED_EXTENSIONS.contains ext then
              if MAX_FILE_SIZE < size then files
              else files ++ [⟨pfx ++ [name], size, ext, true⟩]
            else files
        scanEntriesNew cancel pfx depth rest files' (k + 1)
      | .dir name children =>
        if isHiddenSkip name || DEFAULT_IGNORED_DIRS.contains name then
          scanEntriesNew cancel pfx depth rest files (k + 1)
        else
          let sub := scanDirNew cancel (pfx ++ [name]) (depth + 1) children files (k + 1)
          scanEntriesNew cancel pfx depth rest sub.1 sub.2
end

/-- What one `FastFileScanner.scan` run returns and emits. -/
structure ScanOutcome : Type where
  /-- `result.files` as returned. -/
  files : List FileInfo
  /-- `result.total_size` as returned. -/
  total_size : ℕ
  /-- `result.estimated_tokens` as returned. -/
  estimated_tokens : ℕ
  /-- The percent values delivered to the progress callback, in order. -/
  percents : List ℕ
  /-- The internal `files_found` accumulator at the end of traversal. -/
  filesFound : List FileInfo
  /-- Whether the final flag check saw the cancellation flag set. -/
  cancelled : Bool
deriving DecidableEq, Repr

/-- `FastFileScanner.scan` of `scanner.py`: report 0%, traverse from depth 0,
then read the flag once more; when it is set, return the fresh `ScanResult`
(its `files` list still empty) without the completion report; otherwise store
the found files, aggregate included sizes, divide by `TOKEN_FACTOR`, and
report 100%. -/
def scanNewTop (cancel : ℕ → Bool) (tree : FSListE) : ScanOutcome :=
  let t := scanDirNew cancel [] 0 tree [] 0
  if cancel t.2 then
    { files := [], total_size := 0, estimated_tokens := 0,
      percents := [0], filesFound := t.1, cancelled := true }
  else
    let total := (((t.1.filter (fun f => f.included)).map (fun f => f.size)).sum)
    { files := t.1, total_size := total, estimated_tokens := total / TOKEN_FACTOR,
      percents := [0, 100], filesFound := t.1, cancelled := false }

/-- What one `FastFileScanner.read_files` run returns and emits. -/
structure ReadOutcome : Type where
  /-- `result.content_map` additions, in order (relative path, text). -/
  content_map : List (List String × String)
  /-- The percent values delivered to the progress callback, in order. -/
  percents : List ℕ
deriving DecidableEq, Repr

/-- The `for idx, file_info in enumerate(included)` loop of `read_files`:
one flag read per file (break when set); the per-file text comes from the
oracle `readO` (`None` models an unreadable or undecodable file, and — as in
Python's `if content:` — an empty string is also not stored); every fifth
index reports `int((idx / total) * 100)` percent. -/
def readLoop (cancel : ℕ → Bool) (readO : List String → Option String)
    (total : ℕ) : List FileInfo → ℕ → ℕ →
    List (List String × String) → List ℕ → List (List String × String) × List ℕ × ℕ
  | [], _, k, cmap, evs => (cmap, evs, k)
  | fi :: rest, idx, k, cmap, evs =>
    if cancel k then (cmap, evs, k + 1)
    else
      let cmap' :=
        match readO fi.relative_path with
        | some c => if c.isEmpty then cmap else cmap ++ [(fi.relative_path, c)]
        | none => cmap
      let evs' :=
        if idx % 5 = 0 then evs ++ [if 0 < total then (idx * 100) / total else 100]
        else evs
      readLoop cancel readO total rest (idx + 1) (k + 1) cmap' evs'

/-- `FastFileScanner.read_files` of `scanner.py`, with a progress callback
supplied: loop over the included files, then always report 100%. -/
def read_files (cancel : ℕ → Bool) (readO : List String → Option String)
    (files : List FileInfo) : ReadOutcome :=
  let included := files.filter (fun f => f.included)
  let r := readLoop cancel readO included.length included 0 0 [] []
  { content_map := r.1, percents := r.2.1 ++ [100] }

/-! ## The legacy scanner (`core/scanner.py`)

Same traversal written inline in one loop; it imports its rule tables from
`config/settings.py` and hard-codes the size and depth caps.  Its progress
callback takes a message only (no percent value). -/

mutual
/-- `FastFileScanner._scan_dir` of `core/scanner.py`: one flag read combined
with the depth guard (`if self._cancel_flag.is_set() or depth > 20`), then
the entries. -/
def scanDirOld (cancel : ℕ → Bool) (pfx : List String) (depth : ℕ)
    (entries : FSListE) (files : List FileInfo) (k : ℕ) : List FileInfo × ℕ :=
  if cancel k then (files, k + 1)
  else if 20 < depth then (files, k + 1)
  else scanEntriesOld cancel pfx depth entries files (k + 1)

/-- The legacy entry loop: flag read per entry, hidden skip, ignored-dir
skip, recursion, and the inline file test (extension in the legacy set, size
within `1_000_000`). -/
def scanEntriesOld (cancel : ℕ → Bool) (pfx : List String) (depth : ℕ)
    (entries : FSListE) (files : List FileInfo) (k : ℕ) : List FileInfo × ℕ :=
  match entries with
  | .nil => (files, k)
  | .cons e rest =>
    if cancel k then (files, k + 1)
    else
      match e with
      | .file name size =>
        let files' :=
          if isHiddenSkip name then files
          else
            let ext := pySuffix name
            if SUPPORTED_EXTENSIONS_legacy.contains ext then
              if 1000000 < size then files
              else files ++ [⟨pfx ++ [name], size, ext, true⟩]
            else files
        scanEntriesOld cancel pfx depth rest files' (k + 1)
      | .dir name children =>
        if isHiddenSkip name || DEFAULT_IGNORED_DIRS_legacy.contains name then
          scanEntriesOld cancel pfx depth rest files (k + 1)
        else
          let sub := scanDirOld cancel (pfx ++ [name]) (depth + 1) children files (k + 1)
          scanEntriesOld cancel pfx depth rest sub.1 sub.2
end

/-- What one legacy `scan` run returns (its callback carries no percents). -/
structure ScanOutcomeOld : Type where
  /-- `result.files` as returned. -/
  files : List FileInfo
  /-- `result.total_size` as returned. -/
  total_size : ℕ
  /-- `result.estimated_tokens` as returned. -/
  estimated_tokens : ℕ
  /-- The internal `files_found` accumulator at the end of traversal. -/
  filesFound : List FileInfo
  /-- Whether the final flag check saw the cancellation flag set. -/
  cancelled : Bool
deriving DecidableEq, Repr

/-- `FastFileScanner.scan` of `core/scanner.py`: traverse from depth 0, read
the flag once more, return the fresh empty result when set, else the found
files with the same aggregates as the current scanner. -/
def scanOldTop (cancel : ℕ → Bool) (tree : FSListE) : ScanOutcomeOld :=
  let t := scanDirOld cancel [] 0 tree [] 0
  if cancel t.2 then
    { files := [], total_size := 0, estimated_tokens := 0,
      filesFound := t.1, cancelled := true }
  else
    let total := (((t.1.filter (fun f => f.included)).map (fun f => f.size)).sum)
    { files := t.1, total_size := total, estimated_tokens := total / TOKEN_FACTOR,
      filesFound := t.1, cancelled := false }

/-! ## Existing-documentation detection (`scanner.py`) -/

/-- `DOC_FILENAMES = {gt.filename for gt in GenerationType}`. -/
def DOC_FILENAMES : List String :=
  ["AI_ARCHITECTURE.md", "AI_RULES.md", "PROJECT_CONTEXT.md",
   "API_DOCUMENTATION.md", "TESTING_GUIDE.md", "SECURITY_AUDIT.md",
   "DEVELOPER_ONBOARDING.md", "DATABASE_SCHEMA.md", "DEPLOYMENT_GUIDE.md",
   "DEPENDENCIES_ANALYSIS.md", "PERFORMANCE_GUIDE.md"]

/-- `COMMON_DOC_FILES` of `scanner.py`. -/
def COMMON_DOC_FILES : List String :=
  ["README.md", "CHANGELOG.md", "CONTRIBUTING.md", "LICENSE.md",
   "ARCHITECTURE.md", "DOCS.md", "DOCUMENTATION.md", "API.md",
   "SECURITY.md", "TESTING.md", "DEPLOYMENT.md", "INSTALL.md"]

/-- `DOC_FOLDERS` of `scanner.py`. -/
def DOC_FOLDERS : List String := ["docs", "doc", "documentation", "wiki"]

/-- Python `str.upper()` (ASCII folding, matching the names involved). -/
def pyUpper (s : String) : String := ⟨s.data.map Char.toUpper⟩

/-- The `is_known` test of `_scan_for_docs`: the name, or its uppercased
form, is a generated-artifact or common project-doc name. -/
def isKnownDocName (name : String) : Bool :=
  DOC_FILENAMES.contains name || COMMON_DOC_FILES.contains name
    || DOC_FILENAMES.contains (pyUpper name) || COMMON_DOC_FILES.contains (pyUpper name)

/-- One entry of a searched directory as `_scan_for_docs` sees it: its name,
whether it is a regular file, and what `_read_file_safe` would return for it
(`None` = unreadable/undecodable). -/
structure DocEntry : Type where
  name : String
  isFile : Bool
  text : Option String
deriving DecidableEq, Repr

/-- `ExistingDoc` of `models.py` (the absolute `path` is root + relative). -/
structure ExistingDoc : Type where
  relative_path : List String
  filename : String
  content : String
  is_outdated : Bool
deriving DecidableEq, Repr

/-- `FastFileScanner._check_if_outdated`: empty, or shorter than 200
characters, or containing a placeholder marker (lowercased). -/
def check_if_outdated (content : String) : Bool :=
  if content.isEmpty then true
  else if content.length < 200 then true
  else
    let lower : List Char := pyLower content.data
    ["todo:", "fixme:", "coming soon", "work in progress",
     "wip", "placeholder", "to be documented", "tbd",
     "[inserisci", "[aggiungi", "[da completare"].any
      (fun p => listInfix p.data lower)

/-- `name.lower().endswith('.md')`. -/
def endsMd (name : String) : Bool :=
  (pyLower name.data).reverse.take 3 == ['d', 'm', '.']

/-- Whether `_scan_for_docs` registers an entry of the searched directory:
a regular file, lowercased name ending in `.md`, and either `is_known` or
the searched directory is not the root. -/
def registersDoc (isRoot : Bool) (e : DocEntry) : Bool :=
  e.isFile && endsMd e.name && (isKnownDocName e.name || !isRoot)

/-- The `ExistingDoc` that `_add_existing_doc` builds for a registered entry
(`content = self._read_file_safe(path) or ""`, then the staleness check). -/
def mkExistingDoc (dirRel : List String) (e : DocEntry) : ExistingDoc :=
  let content := (e.text.getD "")
  { relative_path := dirRel ++ [e.name], filename := e.name,
    content := content, is_outdated := check_if_outdated content }

/-- The accumulator `found_docs`, keyed by file name with assignment
overwriting (Python dict semantics). -/
def DocMap : Type := String → Option ExistingDoc

/-- `FastFileScanner._scan_for_docs` over one directory listing: register
each qualifying entry into the map, later entries overwriting earlier. -/
def scanForDocs (isRoot : Bool) (dirRel : List String) :
    List DocEntry → DocMap → DocMap
  | [], acc => acc
  | e :: rest, acc =>
    let acc' : DocMap :=
      if registersDoc isRoot e then
        fun n => if n = e.name then some (mkExistingDoc dirRel e) else acc n
      else acc
    scanForDocs isRoot dirRel rest acc'

/-- `FastFileScanner.detect_existing_docs`: search the root, then each doc
folder present (as a directory), in the order the `DOC_FOLDERS` set happens
to iterate — given here as the `folders` argument, each with its listing. -/
def detectExistingDocs (rootEntries : List DocEntry)
    (folders : List (String × List DocEntry)) : DocMap :=
  let afterRoot := scanForDocs true [] rootEntries (fun _ => none)
  folders.foldl (fun acc f => scanForDocs false [f.1] f.2 acc) afterRoot

/-! ## Spec-side vocabulary and concrete inputs used by the theorems -/

/-- The filter invariant every record produced by the current scanner
satisfies: supported extension, size within the cap, `included` set, and no
path component above the file inside the ignored-directory set. -/
def ScanRecOK (r : FileInfo) : Prop :=
  r.extension ∈ SUPPORTED_EXTENSIONS ∧ r.size ≤ MAX_FILE_SIZE ∧ r.included = true
    ∧ ∀ d ∈ r.relative_path.dropLast, d ∉ DEFAULT_IGNORED_DIRS

/-- The last entry of a listing that `_scan_for_docs` would register under a
given name (the dictionary keeps the latest assignment per key). -/
def lastRegistered (isRoot : Bool) (name : String) : List DocEntry → Option DocEntry
  | [] => none
  | e :: rest =>
    match lastRegistered isRoot name rest with
    | some e' => some e'
    | none => if e.name == name && registersDoc isRoot e then some e else none

mutual
/-- No file anywhere in the entry has the `.vue` or `.svelte` suffix (the two
extensions the current supported set adds over the legacy one). -/
def noNewExtE : FSEntry → Bool
  | .file name _ => !(pySuffix name == ".vue" || pySuffix name == ".svelte")
  | .dir _ children => noNewExtL children

/-- `noNewExtE` over a listing. -/
def noNewExtL : FSListE → Bool
  | .nil => true
  | .cons e rest => noNewExtE e && noNewExtL rest
end

/-- The never-set cancellation flag. -/
def neverCancel : ℕ → Bool := fun _ => false

/-- The spec's example tree: `main.py` (500 B), `node_modules/dep.js`
(200 B), `image.png` (9000 B). -/
def demoTree : FSListE :=
  .cons (.file "main.py" 500)
    (.cons (.dir "node_modules" (.cons (.file "dep.js" 200) .nil))
      (.cons (.file "image.png" 9000) .nil))

/-- A single supported file, used to exhibit cancellation behaviour. -/
def oneFileTree : FSListE := .cons (.file "a.py" 1) .nil

/-- A single `.vue` file, on which the two scanners differ. -/
def vueTree : FSListE := .cons (.file "app.vue" 8) .nil

/-- A concrete estimate with a nonzero token total, used to exhibit the
`actual_tokens = 0` behaviour of `add_entry`. -/
def cexEstimate : CostEstimate :=
  ⟨2, 3, 5, 0, 0, 0, Currency.EUR, "m", "M", ContentType.mixed, "t"⟩

/-! ## Helper lemmas -/

theorem pyInt_of_nonneg (q : ℚ) (h : 0 ≤ q) : pyInt q = ⌊q⌋ := by
  simp [pyInt, h]

theorem pyInt_nonneg (q : ℚ) (h : 0 ≤ q) : 0 ≤ pyInt q := by
  rw [pyInt_of_nonneg q h]
  exact Int.floor_nonneg.mpr h

theorem char_ratios_pos (c : ContentType) : 0 < CHAR_RATIOS c := by
  cases c <;> norm_num [CHAR_RATIOS]

theorem estimate_tokens_eq (text : String) (o : Option ContentType) :
    estimate_tokens text o =
      ⌊(text.length : ℚ) / CHAR_RATIOS (o.getD (detect_content_type text))⌋ := by
  unfold estimate_tokens
  by_cases h : text.isEmpty
  · have hlen : text.length = 0 := by
      cases text with
      | mk data =>
        cases data with
        | nil => rfl
        | cons c cs =>
          exfalso
          simp [String.isEmpty, String.endPos, String.utf8ByteSize] at h
          have h' : String.utf8Len cs + c.utf8Size = 0 := congrArg String.Pos.byteIdx h
          have hc := Char.utf8Size_pos c
          omega
    simp [h, hlen]
  · rw [if_neg (by simp [h])]
    cases o with
    | none =>
      have hnn : (0 : ℚ) ≤ (text.length : ℚ) / CHAR_RATIOS (detect_content_type text) :=
        div_nonneg (by positivity) (le_of_lt (char_ratios_pos _))
      exact pyInt_of_nonneg _ hnn
    | some c =>
      have hnn : (0 : ℚ) ≤ (text.length : ℚ) / CHAR_RATIOS c :=
        div_nonneg (by positivity) (le_of_lt (char_ratios_pos _))
      exact pyInt_of_nonneg _ hnn

/-- C2: for every text, `estimate_tokens` with no family supplied equals
`floor(len(text) / ratio[detect_content_type(text)])`, and with a family
supplied equals `floor(len(text) / ratio[family])`; the per-family ratios are
code 3.8, English prose 4.0, Italian prose 4.2, mixed 4.0, JSON 3.5,
markdown 4.0, the lookup default being 4.0; and the empty text estimates to
zero tokens. -/
theorem estimate_tokens_formula (text : String) (ct : ContentType) :
    estimate_tokens text none =
        ⌊(text.length : ℚ) / CHAR_RATIOS (detect_content_type text)⌋
    ∧ estimate_tokens text (some ct) = ⌊(text.length : ℚ) / CHAR_RATIOS ct⌋
    ∧ CHAR_RATIOS ContentType.code = 19 / 5
    ∧ CHAR_RATIOS ContentType.prose_en = 4
    ∧ CHAR_RATIOS ContentType.prose_it = 21 / 5
    ∧ CHAR_RATIOS ContentType.mixed = 4
    ∧ CHAR_RATIOS ContentType.json = 7 / 2
    ∧ CHAR_RATIOS ContentType.markdown = 4
    ∧ DEFAULT_RATIO_val = 4
    ∧ estimate_tokens "" none = 0 := by
  refine ⟨?_, ?_, ?_, ?_, ?_, ?_, ?_, ?_, ?_, ?_⟩
  · simpa using estimate_tokens_eq text none
  · simpa using estimate_tokens_eq text (some ct)
  · norm_num [CHAR_RATIOS]
  · norm_num [CHAR_RATIOS]
  · norm_num [CHAR_RATIOS]
  · norm_num [CHAR_RATIOS]
  · norm_num [CHAR_RATIOS]
  · norm_num [CHAR_RATIOS]
  · norm_num [DEFAULT_RATIO_val]
  · rfl

/-- C7 (amended): `estimate_output_tokens` truncates (`int(...)`) rather than
rounds: for non-negative inputs it is the floor of `input_tokens *
multiplier`, and the calculator's default multiplier is 1.5. -/
theorem estimate_output_tokens_trunc (n : ℤ) (m : ℚ) (hn : 0 ≤ n) (hm : 0 ≤ m) :
    estimate_output_tokens n m = ⌊(n : ℚ) * m⌋
    ∧ defaultCostCalculator.output_multiplier = 3 / 2 := by
  constructor
  · unfold estimate_output_tokens
    exact pyInt_of_nonneg _ (mul_nonneg (by exact_mod_cast hn) hm)
  · norm_num [defaultCostCalculator]

/-- C7 witness: the amended statement at `input_tokens = 4`, multiplier 1.5. -/
theorem estimate_output_tokens_trunc_w :
    estimate_output_tokens 4 (3 / 2) = ⌊((4 : ℤ) : ℚ) * (3 / 2)⌋
    ∧ defaultCostCalculator.output_multiplier = 3 / 2 :=
  estimate_output_tokens_trunc 4 (3 / 2) (by norm_num) (by norm_num)

/-- C7 counterexample: one input token with the default multiplier 1.5 yields
1 output token (truncation), not `round(1 * 1.5) = 2` as claimed. -/
theorem estimate_output_tokens_cex :
    estimate_output_tokens 1 (3 / 2) = 1 ∧ round ((1 : ℚ) * (3 / 2)) = 2 := by
  constructor
  · have : ((1 : ℤ) : ℚ) * (3 / 2) = 3 / 2 := by norm_num
    rw [estimate_output_tokens, this, pyInt_of_nonneg _ (by norm_num)]
    norm_num [Int.floor_eq_iff]
  · rw [round_eq]
    norm_num [Int.floor_eq_iff]

/-- C8 (amended): the stored entry's `accuracy_ratio` is
`actual_tokens / estimate.total_tokens` exactly when `actual_tokens` is
supplied, *nonzero* (Python's truthiness test `if actual_tokens and ...`
treats a supplied 0 like an absent value), and the estimate's token total is
positive; in every other case it is absent. -/
theorem add_entry_accuracy_spec (est : CostEstimate) (act : Option ℤ)
    (cost : Option ℚ) (r : ℚ) :
    ((add_entry est act cost).accuracy_ratio = some r ↔
      ∃ t : ℤ, act = some t ∧ t ≠ 0 ∧ 0 < est.total_tokens
        ∧ r = (t : ℚ) / (est.total_tokens : ℚ))
    ∧ ((add_entry est act cost).accuracy_ratio = none ↔
      act = none ∨ act = some 0 ∨ est.total_tokens ≤ 0) := by
  cases act with
  | none => simp [add_entry]
  | some t =>
    by_cases ht : t = 0
    · subst ht
      simp [add_entry]
    · by_cases htot : 0 < est.total_tokens
      · simp only [add_entry, if_pos (And.intro ht htot)]
        constructor
        · constructor
          · intro hsome
            exact ⟨t, rfl, ht, htot, (Option.some_inj.mp hsome).symm⟩
          · rintro ⟨t', ht', _, _, hr⟩
            obtain rfl : t' = t := by simpa using ht'.symm
            simp [hr]
        · simp [ht, htot, not_le.mpr htot]
      · simp only [add_entry, if_neg (by tauto)]
        simp [ht, htot, le_of_not_lt htot]

/-- C8 counterexample: with a supplied `actual_tokens = 0` and a positive
estimated total, the claim demands `accuracy_ratio = 0 / total = 0`, but the
code leaves it absent. -/
theorem add_entry_accuracy_cex :
    (add_entry cexEstimate (some 0) none).accuracy_ratio = none
    ∧ 0 < cexEstimate.total_tokens
    ∧ (add_entry cexEstimate (some 0) none).accuracy_ratio ≠
        some ((0 : ℚ) / (cexEstimate.total_tokens : ℚ)) := by
  refine ⟨by simp [add_entry], by norm_num [cexEstimate], by simp [add_entry]⟩

theorem get_model_mem (name : String) :
    get_model name ∈ MODELS.map Prod.snd := by
  unfold get_model
  cases h1 : MODELS.find? (fun p => p.1 == cleanModelName name) with
  | some p =>
    simp only [h1]
    exact List.mem_map_of_mem Prod.snd (List.mem_of_find?_eq_some h1)
  | none =>
    cases h2 : MODELS.find? (fun p =>
        listInfix p.1.data (cleanModelName name).data
          || listInfix (cleanModelName name).data p.1.data) with
    | some p =>
      simp only [h1, h2]
      exact List.mem_map_of_mem Prod.snd (List.mem_of_find?_eq_some h2)
    | none =>
      simp only [h1, h2]
      simp only [ MODELS, List.map_cons, List.map_nil, List.mem_cons]
      right; right; left; rfl

theorem models_prices_nonneg (m : ModelPricing) (hm : m ∈ MODELS.map Prod.snd) :
    0 ≤ m.input_price_per_million ∧ 0 ≤ m.output_price_per_million := by
  simp only [ MODELS, List.map_cons, List.map_nil, List.mem_cons,
    List.not_mem_nil, or_false] at hm
  rcases hm with h | h | h | h | h | h | h <;> subst h <;> constructor <;> norm_num

theorem rate_nonneg (c : Currency) : 0 ≤ get_exchange_rate c none := by
  cases c <;> norm_num [get_exchange_rate, DEFAULT_EXCHANGE_RATES]

/-- C3: for a non-negative token count and any model name (known or not),
the estimate from `calculate_from_tokens` (with the default calculator)
satisfies `total_cost = input_cost + output_cost` with both costs
non-negative and `total_tokens = input_tokens + output_tokens`; and model
lookup is total — when both the exact and the substring lookups miss,
`get_model` falls back to the default registry entry. -/
theorem calculate_from_tokens_spec (n : ℤ) (model_name : String)
    (c : Option Currency) (now : String) (hn : 0 ≤ n) :
    ((calculate_from_tokens defaultCostCalculator n model_name c true now).total_cost
      = (calculate_from_tokens defaultCostCalculator n model_name c true now).input_cost
        + (calculate_from_tokens defaultCostCalculator n model_name c true now).output_cost)
    ∧ 0 ≤ (calculate_from_tokens defaultCostCalculator n model_name c true now).input_cost
    ∧ 0 ≤ (calculate_from_tokens defaultCostCalculator n model_name c true now).output_cost
    ∧ ((calculate_from_tokens defaultCostCalculator n model_name c true now).total_tokens
      = (calculate_from_tokens defaultCostCalculator n model_name c true now).input_tokens
        + (calculate_from_tokens defaultCostCalculator n model_name c true now).output_tokens)
    ∧ ((MODELS.find? (fun p => p.1 == cleanModelName model_name) = none
        ∧ MODELS.find? (fun p => listInfix p.1.data (cleanModelName model_name).data
            || listInfix (cleanModelName model_name).data p.1.data) = none) →
       get_model model_name = defaultModelPricing) := by
  have hprice := models_prices_nonneg _ (get_model_mem model_name)
  have hin : 0 ≤ (get_model model_name).input_price_per_token :=
    div_nonneg hprice.1 (by norm_num)
  have hout : 0 ≤ (get_model model_name).output_price_per_token :=
    div_nonneg hprice.2 (by norm_num)
  have hrate : 0 ≤ get_exchange_rate (c.getD Currency.EUR) none := rate_nonneg _
  have hmul : (0 : ℚ) ≤ defaultCostCalculator.output_multiplier := by
    norm_num [defaultCostCalculator]
  have hotok : (0 : ℚ) ≤
      ((estimate_output_tokens n defaultCostCalculator.output_multiplier : ℤ) : ℚ) := by
    exact_mod_cast pyInt_nonneg _ (mul_nonneg (by exact_mod_cast hn) hmul)
  refine ⟨add_mul _ _ _, ?_, ?_, rfl, ?_⟩
  · exact mul_nonneg (mul_nonneg (by exact_mod_cast hn) hin) hrate
  · exact mul_nonneg (mul_nonneg hotok hout) hrate
  · rintro ⟨h1, h2⟩
    simp [get_model, h1, h2]

/-- C3 witness: the statement at 5 tokens and an unknown model name. -/
theorem calculate_from_tokens_spec_w :
    ((calculate_from_tokens defaultCostCalculator 5 "mystery-model-zzz" none true "t").total_cost
      = (calculate_from_tokens defaultCostCalculator 5 "mystery-model-zzz" none true "t").input_cost
        + (calculate_from_tokens defaultCostCalculator 5 "mystery-model-zzz" none true "t").output_cost)
    ∧ 0 ≤ (calculate_from_tokens defaultCostCalculator 5 "mystery-model-zzz" none true "t").input_cost :=
  ⟨(calculate_from_tokens_spec 5 "mystery-model-zzz" none "t" (by norm_num)).1,
   (calculate_from_tokens_spec 5 "mystery-model-zzz" none "t" (by norm_num)).2.1⟩

theorem genLoop_fail_step (f : ℕ → Except String GenerationResult)
    (dt : GenerationType) (remaining attempt : ℕ) (err : String)
    (h : attemptFails (f attempt) = true) (hlt : attempt < MAX_RETRIES - 1) :
    genLoop f dt (remaining + 1) attempt err =
      ((genLoop f dt remaining (attempt + 1) (failMsg (f attempt))).1,
        RetryEvent.attemptEv attempt
          :: RetryEvent.sleepEv (RETRY_DELAY * (attempt + 1))
          :: (genLoop f dt remaining (attempt + 1) (failMsg (f attempt))).2) := by
  cases hres : f attempt with
  | ok g =>
    have hg : g.success = false := by
      simpa [attemptFails, hres] using h
    simp [genLoop, hres, hg, failMsg, hlt]
  | error e =>
    simp [genLoop, hres, failMsg, hlt]

theorem genLoop_last_fail (f : ℕ → Except String GenerationResult)
    (dt : GenerationType) (err : String)
    (h : attemptFails (f 2) = true) :
    genLoop f dt 1 2 err =
      ({ success := false, doc_type := dt, content := "",
         error_message := failMsg (f 2), tokens_used := 0,
         retries := MAX_RETRIES }, [RetryEvent.attemptEv 2]) := by
  cases hres : f 2 with
  | ok g =>
    have hg : g.success = false := by
      simpa [attemptFails, hres] using h
    simp [genLoop, hres, hg, failMsg, MAX_RETRIES]
  | error e =>
    simp [genLoop, hres, failMsg, MAX_RETRIES]

theorem genLoop_last_succ (f : ℕ → Except String GenerationResult)
    (dt : GenerationType) (err : String)
    (h : attemptFails (f 2) = false) :
    (genLoop f dt 1 2 err).1.success = true
    ∧ (genLoop f dt 1 2 err).1.retries = 2
    ∧ (genLoop f dt 1 2 err).2 = [RetryEvent.attemptEv 2] := by
  cases hres : f 2 with
  | ok g =>
    have hg : g.success = true := by
      simpa [attemptFails, hres] using h
    simp [genLoop, hres, hg]
  | error e =>
    simp [attemptFails, hres] at h

/-- C1: with a stubbed external call that fails on attempts 0 and 1 and
succeeds on attempt 2 (0-based), `generate_documentation` returns
`success = true` with `retries = 2`; with a stub failing on every allowed
attempt it returns `success = false`, `retries = MAX_RETRIES = 3`, and the
error message of the last attempt; in both runs the observable event
sequence is attempt 0, sleep `2·1` s, attempt 1, sleep `2·2` s, attempt 2 —
the linear-backoff sleeps fall strictly between consecutive attempts, never
before the first and never after the last. -/
theorem generate_documentation_retry_spec
    (f g : ℕ → Except String GenerationResult) (dt : GenerationType)
    (hf0 : attemptFails (f 0) = true) (hf1 : attemptFails (f 1) = true)
    (hf2 : attemptFails (f 2) = false)
    (hg0 : attemptFails (g 0) = true) (hg1 : attemptFails (g 1) = true)
    (hg2 : attemptFails (g 2) = true) :
    (generate_documentation f dt).1.success = true
    ∧ (generate_documentation f dt).1.retries = 2
    ∧ (generate_documentation f dt).2 =
        [RetryEvent.attemptEv 0, RetryEvent.sleepEv (RETRY_DELAY * 1),
         RetryEvent.attemptEv 1, RetryEvent.sleepEv (RETRY_DELAY * 2),
         RetryEvent.attemptEv 2]
    ∧ (generate_documentation g dt).1.success = false
    ∧ (generate_documentation g dt).1.retries = MAX_RETRIES
    ∧ (generate_documentation g dt).1.error_message = failMsg (g 2)
    ∧ (generate_documentation g dt).2 =
        [RetryEvent.attemptEv 0, RetryEvent.sleepEv (RETRY_DELAY * 1),
         RetryEvent.attemptEv 1, RetryEvent.sleepEv (RETRY_DELAY * 2),
         RetryEvent.attemptEv 2] := by
  have hf01 : genLoop f dt 3 0 "" =
      ((genLoop f dt 1 2 (failMsg (f 1))).1,
        RetryEvent.attemptEv 0 :: RetryEvent.sleepEv (RETRY_DELAY * 1)
          :: RetryEvent.attemptEv 1 :: RetryEvent.sleepEv (RETRY_DELAY * 2)
          :: (genLoop f dt 1 2 (failMsg (f 1))).2) := by
    rw [show (3 : ℕ) = 2 + 1 from rfl,
      genLoop_fail_step f dt 2 0 "" hf0 (by norm_num [ MAX_RETRIES]),
      show (2 : ℕ) = 1 + 1 from rfl,
      genLoop_fail_step f dt 1 1 (failMsg (f 0)) hf1 (by norm_num [ MAX_RETRIES])]
  have hg01 : genLoop g dt 3 0 "" =
      ((genLoop g dt 1 2 (failMsg (g 1))).1,
        RetryEvent.attemptEv 0 :: RetryEvent.sleepEv (RETRY_DELAY * 1)
          :: RetryEvent.attemptEv 1 :: RetryEvent.sleepEv (RETRY_DELAY * 2)
          :: (genLoop g dt 1 2 (failMsg (g 1))).2) := by
    rw [show (3 : ℕ) = 2 + 1 from rfl,
      genLoop_fail_step g dt 2 0 "" hg0 (by norm_num [ MAX_RETRIES]),
      show (2 : ℕ) = 1 + 1 from rfl,
      genLoop_fail_step g dt 1 1 (failMsg (g 0)) hg1 (by norm_num [ MAX_RETRIES])]
  have hfl := genLoop_last_succ f dt (failMsg (f 1)) hf2
  have hgl := genLoop_last_fail g dt (failMsg (g 1)) hg2
  unfold generate_documentation
  rw [show MAX_RETRIES = 3 from rfl, hf01, hg01, hgl]
  refine ⟨hfl.1, hfl.2.1, ?_, rfl, rfl, rfl, rfl⟩
  rw [hfl.2.2]

/-- C1 witness: the statement at a stub erroring twice then returning a
successful result, and a stub erroring always. -/
theorem generate_documentation_retry_spec_w :
    (generate_documentation
        (fun n => if n < 2 then Except.error "boom"
          else Except.ok ⟨true, GenerationType.ARCHITECTURE, "doc", "", 10, 0⟩)
        GenerationType.ARCHITECTURE).1.success = true
    ∧ (generate_documentation
        (fun n => if n < 2 then Except.error "boom"
          else Except.ok ⟨true, GenerationType.ARCHITECTURE, "doc", "", 10, 0⟩)
        GenerationType.ARCHITECTURE).1.retries = 2
    ∧ (generate_documentation
        (fun n => if n < 2 then Except.error "boom"
          else Except.ok ⟨true, GenerationType.ARCHITECTURE, "doc", "", 10, 0⟩)
        GenerationType.ARCHITECTURE).2 =
        [RetryEvent.attemptEv 0, RetryEvent.sleepEv (RETRY_DELAY * 1),
         RetryEvent.attemptEv 1, RetryEvent.sleepEv (RETRY_DELAY * 2),
         RetryEvent.attemptEv 2]
    ∧ (generate_documentation (fun _ => Except.error "down")
        GenerationType.ARCHITECTURE).1.success = false
    ∧ (generate_documentation (fun _ => Except.error "down")
        GenerationType.ARCHITECTURE).1.retries = MAX_RETRIES
    ∧ (generate_documentation (fun _ => Except.error "down")
        GenerationType.ARCHITECTURE).1.error_message =
        failMsg ((fun _ : ℕ => Except.error "down") 2)
    ∧ (generate_documentation (fun _ => Except.error "down")
        GenerationType.ARCHITECTURE).2 =
        [RetryEvent.attemptEv 0, RetryEvent.sleepEv (RETRY_DELAY * 1),
         RetryEvent.attemptEv 1, RetryEvent.sleepEv (RETRY_DELAY * 2),
         RetryEvent.attemptEv 2] :=
  generate_documentation_retry_spec
    (fun n => if n < 2 then Except.error "boom"
      else Except.ok ⟨true, GenerationType.ARCHITECTURE, "doc", "", 10, 0⟩)
    (fun _ => Except.error "down") GenerationType.ARCHITECTURE
    (by simp [attemptFails]) (by simp [attemptFails]) (by simp [attemptFails])
    rfl rfl rfl

theorem scanEntriesNew_nil (cancel : ℕ → Bool) (pfx : List String) (depth : ℕ)
    (files : List FileInfo) (k : ℕ) :
    scanEntriesNew cancel pfx depth .nil files k = (files, k) := by
  rw [scanEntriesNew.eq_def]

theorem scanEntriesNew_cons (cancel : ℕ → Bool) (pfx : List String) (depth : ℕ)
    (e : FSEntry) (rest : FSListE) (files : List FileInfo) (k : ℕ) :
    scanEntriesNew cancel pfx depth (.cons e rest) files k =
      if cancel k then (files, k + 1)
      else
        match e with
        | .file name size =>
          let files' :=
            if isHiddenSkip name then files
            else
              let ext := pySuffix name
              if SUPPORTED_EXTENSIONS.contains ext then
                if MAX_FILE_SIZE < size then files
                else files ++ [⟨pfx ++ [name], size, ext, true⟩]
              else files
          scanEntriesNew cancel pfx depth rest files' (k + 1)
        | .dir name children =>
          if isHiddenSkip name || DEFAULT_IGNORED_DIRS.contains name then
            scanEntriesNew cancel pfx depth rest files (k + 1)
          else
            let sub := scanDirNew cancel (pfx ++ [name]) (depth + 1) children files (k + 1)
            scanEntriesNew cancel pfx depth rest sub.1 sub.2 := by
  rw [scanEntriesNew.eq_def]

mutual
theorem scanDirNew_inv (cancel : ℕ → Bool) (pfx : List String) (depth : ℕ)
    (entries : FSListE) (files : List FileInfo) (k : ℕ)
    (hpfx : ∀ d ∈ pfx, d ∉ DEFAULT_IGNORED_DIRS)
    (hfiles : ∀ r ∈ files, ScanRecOK r) :
    ∀ r ∈ (scanDirNew cancel pfx depth entries files k).1, ScanRecOK r := by
  simp only [scanDirNew]
  split
  · simpa using hfiles
  · split
    · simpa using hfiles
    · exact scanEntriesNew_inv cancel pfx depth entries files (k + 1) hpfx hfiles

theorem scanEntriesNew_inv (cancel : ℕ → Bool) (pfx : List String) (depth : ℕ)
    (entries : FSListE) (files : List FileInfo) (k : ℕ)
    (hpfx : ∀ d ∈ pfx, d ∉ DEFAULT_IGNORED_DIRS)
    (hfiles : ∀ r ∈ files, ScanRecOK r) :
    ∀ r ∈ (scanEntriesNew cancel pfx depth entries files k).1, ScanRecOK r := by
  cases entries with
  | nil => simpa [scanEntriesNew_nil] using hfiles
  | cons e rest =>
    rw [scanEntriesNew_cons]
    by_cases hc : cancel k
    · simp only [hc, if_true]
      simpa using hfiles
    · simp only [hc, Bool.false_eq_true, if_false]
      cases e with
      | file name size =>
        refine scanEntriesNew_inv cancel pfx depth rest _ (k + 1) hpfx ?_
        intro r hr
        by_cases h1 : isHiddenSkip name
        · rw [if_pos h1] at hr
          exact hfiles r hr
        · rw [if_neg h1] at hr
          by_cases h2 : SUPPORTED_EXTENSIONS.contains (pySuffix name)
          · by_cases h3 : MAX_FILE_SIZE < size
            · rw [if_pos h2, if_pos h3] at hr
              exact hfiles r hr
            · rw [if_pos h2, if_neg h3] at hr
              have hsplit := List.mem_append.mp hr
              rcases hsplit with h | h
              · exact hfiles r h
              · have hr2 : r = FileInfo.mk (pfx ++ [name]) size (pySuffix name) true := by
                  simpa using h
                subst hr2
                refine ⟨by simpa using h2, le_of_not_lt h3, rfl, ?_⟩
                intro d hd
                rw [List.dropLast_concat] at hd
                exact hpfx d hd
          · rw [if_neg h2] at hr
            exact hfiles r hr
      | dir name children =>
        show ∀ r ∈ ((if isHiddenSkip name || DEFAULT_IGNORED_DIRS.contains name then
            scanEntriesNew cancel pfx depth rest files (k + 1)
          else
            scanEntriesNew cancel pfx depth rest
              (scanDirNew cancel (pfx ++ [name]) (depth + 1) children files (k + 1)).1
              (scanDirNew cancel (pfx ++ [name]) (depth + 1) children files (k + 1)).2)).1,
          ScanRecOK r
        by_cases h4 : isHiddenSkip name || DEFAULT_IGNORED_DIRS.contains name
        · rw [if_pos h4]
          exact scanEntriesNew_inv cancel pfx depth rest files (k + 1) hpfx hfiles
        · rw [if_neg h4]
          have hnotin : name ∉ DEFAULT_IGNORED_DIRS := by
            intro hmem
            apply h4
            simp
            exact Or.inr hmem
          refine scanEntriesNew_inv cancel pfx depth rest _ _ hpfx ?_
          refine scanDirNew_inv cancel (pfx ++ [name]) (depth + 1) children files (k + 1) ?_ hfiles
          intro d hd
          have hsplit := List.mem_append.mp hd
          rcases hsplit with h | h
          · exact hpfx d h
          · have hd2 : d = name := by simpa using h
            subst hd2
            exact hnotin
end

theorem demoTree_scan_eval :
    scanDirNew neverCancel [] 0 demoTree [] 0 =
      ([FileInfo.mk ["main.py"] 500 ".py" true], 4) := by
  simp only [demoTree, scanDirNew, scanEntriesNew_cons, scanEntriesNew_nil, neverCancel,
    show pySuffix "main.py" = ".py" by decide,
    show pySuffix "image.png" = ".png" by decide,
    show isHiddenSkip "main.py" = false by decide,
    show isHiddenSkip "image.png" = false by decide,
    show isHiddenSkip "node_modules" = false by decide,
    show SUPPORTED_EXTENSIONS.contains ".py" = true by decide,
    show SUPPORTED_EXTENSIONS.contains ".png" = false by decide,
    show DEFAULT_IGNORED_DIRS.contains "node_modules" = true by decide,
    show (MAX_FILE_SIZE < 500) = False by decide,
    show (MAX_SCAN_DEPTH < 0) = False by decide]
  simp

/-- C5: scanning the example tree (`main.py` 500 B, `node_modules/dep.js`
200 B, `image.png` 9000 B) yields exactly one record — `main.py`, with
`total_size = 500` and `estimated_tokens = 500 // 4 = 125`; and in general
every record any scan produces has a supported extension, size within
1 000 000 bytes, `included = true`, and no ignored directory name among the
components above it — a file in an ignored directory, with an unsupported
extension, or oversized is never included, at any depth. -/
theorem scanner_filter_spec (cancel : ℕ → Bool) (tree : FSListE) (r : FileInfo)
    (hr : r ∈ (scanNewTop cancel tree).files) :
    (r.extension ∈ SUPPORTED_EXTENSIONS ∧ r.size ≤ MAX_FILE_SIZE
      ∧ r.included = true ∧ ∀ d ∈ r.relative_path.dropLast, d ∉ DEFAULT_IGNORED_DIRS)
    ∧ ((scanNewTop neverCancel demoTree).files = [FileInfo.mk ["main.py"] 500 ".py" true]
      ∧ (scanNewTop neverCancel demoTree).total_size = 500
      ∧ (scanNewTop neverCancel demoTree).estimated_tokens = 125) := by
  constructor
  · have hmain : ∀ x ∈ (scanDirNew cancel [] 0 tree [] 0).1, ScanRecOK x :=
      scanDirNew_inv cancel [] 0 tree [] 0 (by simp) (by simp)
    have : ScanRecOK r := by
      unfold scanNewTop at hr
      by_cases hcan : cancel (scanDirNew cancel [] 0 tree [] 0).2
      · rw [if_pos hcan] at hr
        simp at hr
      · rw [if_neg hcan] at hr
        exact hmain r hr
    exact this
  · unfold scanNewTop
    rw [demoTree_scan_eval]
    norm_num [neverCancel, TOKEN_FACTOR]

/-- C5 witness: the general filter facts applied to the record the example
scan produces. -/
theorem scanner_filter_spec_w :
    (FileInfo.mk ["main.py"] 500 ".py" true) ∈ (scanNewTop neverCancel demoTree).files
    ∧ ((".py" : String) ∈ SUPPORTED_EXTENSIONS ∧ (500 : ℕ) ≤ MAX_FILE_SIZE
      ∧ true = true
      ∧ ∀ d ∈ (["main.py"] : List String).dropLast, d ∉ DEFAULT_IGNORED_DIRS) := by
  have hmem : (FileInfo.mk ["main.py"] 500 ".py" true) ∈ (scanNewTop neverCancel demoTree).files := by
    unfold scanNewTop
    rw [demoTree_scan_eval]
    norm_num [neverCancel]
  exact ⟨hmem, (scanner_filter_spec neverCancel demoTree _ hmem).1⟩

/-- C4 (amended): when the final flag check observes cancellation, `scan`
returns the untouched fresh result — an *empty* inventory, the accumulated
records discarded — and only an uncancelled scan returns the accumulated
records. -/
theorem scan_cancel_discards (cancel : ℕ → Bool) (tree : FSListE) :
    ((scanNewTop cancel tree).cancelled = true →
      (scanNewTop cancel tree).files = []
        ∧ (scanNewTop cancel tree).total_size = 0
        ∧ (scanNewTop cancel tree).estimated_tokens = 0)
    ∧ ((scanNewTop cancel tree).cancelled = false →
      (scanNewTop cancel tree).files = (scanNewTop cancel tree).filesFound) := by
  unfold scanNewTop
  by_cases h : cancel (scanDirNew cancel [] 0 tree [] 0).2
  · rw [if_pos h]
    simp
  · rw [if_neg h]
    simp

theorem oneFileTree_scan_eval :
    scanDirNew (fun k => decide (2 ≤ k)) [] 0 oneFileTree [] 0 =
      ([FileInfo.mk ["a.py"] 1 ".py" true], 2) := by
  simp only [oneFileTree, scanDirNew, scanEntriesNew_cons, scanEntriesNew_nil,
    show pySuffix "a.py" = ".py" by decide,
    show isHiddenSkip "a.py" = false by decide,
    show SUPPORTED_EXTENSIONS.contains ".py" = true by decide,
    show (MAX_FILE_SIZE < 1) = False by decide,
    show (MAX_SCAN_DEPTH < 0) = False by decide]
  norm_num

/-- C4 counterexample: a flag that becomes set right after the only file was
accumulated — the accumulator holds the `a.py` record, yet the returned
inventory is empty. -/
theorem scan_cancel_keeps_partial_cex :
    (scanNewTop (fun k => decide (2 ≤ k)) oneFileTree).filesFound =
      [FileInfo.mk ["a.py"] 1 ".py" true]
    ∧ (scanNewTop (fun k => decide (2 ≤ k)) oneFileTree).cancelled = true
    ∧ (scanNewTop (fun k => decide (2 ≤ k)) oneFileTree).files = [] := by
  unfold scanNewTop
  rw [oneFileTree_scan_eval]
  norm_num

theorem readLoop_percents_lt (cancel : ℕ → Bool) (readO : List String → Option String)
    (total : ℕ) (rem : List FileInfo) (idx k : ℕ)
    (cmap : List (List String × String)) (evs : List ℕ)
    (hidx : idx + rem.length ≤ total) (hevs : ∀ p ∈ evs, p < 100) :
    ∀ p ∈ (readLoop cancel readO total rem idx k cmap evs).2.1, p < 100 := by
  induction rem generalizing idx k cmap evs with
  | nil => simpa [readLoop] using hevs
  | cons fi rest ih =>
    simp only [readLoop]
    split
    · simpa using hevs
    · apply ih
      · simp only [List.length_cons] at hidx
        omega
      · intro p hp
        by_cases h5 : idx % 5 = 0
        · rw [if_pos h5] at hp
          have hsplit := List.mem_append.mp hp
          rcases hsplit with h | h
          · exact hevs p h
          · have htot : 0 < total := by
              simp only [List.length_cons] at hidx
              omega
            rw [if_pos htot] at h
            have hp2 : p = idx * 100 / total := by simpa using h
            subst hp2
            have hi : idx < total := by
              simp only [List.length_cons] at hidx
              omega
            have hlt : idx * 100 < total * 100 := by omega
            exact Nat.div_lt_of_lt_mul hlt
        · rw [if_neg h5] at hp
          exact hevs p hp

/-- C6 (amended): `read_files` (with a callback) delivers the percent 100
exactly once, whether or not it is cancelled mid-way; `scan` delivers 100
exactly once when it completes and — contrary to the claim — zero times when
it is cancelled. -/
theorem progress_percent_spec (cancel : ℕ → Bool) (tree : FSListE)
    (readO : List String → Option String) (files : List FileInfo) :
    ((scanNewTop cancel tree).cancelled = false →
      (scanNewTop cancel tree).percents.count 100 = 1)
    ∧ ((scanNewTop cancel tree).cancelled = true →
      (scanNewTop cancel tree).percents.count 100 = 0)
    ∧ (read_files cancel readO files).percents.count 100 = 1 := by
  refine ⟨?_, ?_, ?_⟩
  · unfold scanNewTop
    by_cases h : cancel (scanDirNew cancel [] 0 tree [] 0).2
    · rw [if_pos h]
      simp
    · rw [if_neg h]
      simp
  · unfold scanNewTop
    by_cases h : cancel (scanDirNew cancel [] 0 tree [] 0).2
    · rw [if_pos h]
      simp
    · rw [if_neg h]
      simp
  · unfold read_files
    have hlt := readLoop_percents_lt cancel readO
      (files.filter (fun f => f.included)).length
      (files.filter (fun f => f.included)) 0 0 [] [] (by simp) (by simp)
    simp only [List.count_append]
    have hz : (readLoop cancel readO (files.filter (fun f => f.included)).length
        (files.filter (fun f => f.included)) 0 0 [] []).2.1.count 100 = 0 := by
      rw [List.count_eq_zero]
      intro hmem
      exact absurd (hlt 100 hmem) (by norm_num)
    rw [hz]
    simp

/-- C6 counterexample: a scan cancelled from the start delivers the percents
`[0]` — the value 100 is never delivered, though the claim requires it
exactly once on cancellation too. -/
theorem progress_percent_cex :
    (scanNewTop (fun _ => true) FSListE.nil).percents = [0]
    ∧ (scanNewTop (fun _ => true) FSListE.nil).percents.count 100 = 0 := by
  unfold scanNewTop
  norm_num [scanDirNew]

theorem scanEntriesNew_cons_file (cancel : ℕ → Bool) (pfx : List String)
    (depth : ℕ) (name : String) (size : ℕ) (rest : FSListE)
    (files : List FileInfo) (k : ℕ) :
    scanEntriesNew cancel pfx depth (.cons (.file name size) rest) files k =
      if cancel k then (files, k + 1)
      else
        scanEntriesNew cancel pfx depth rest
          (if isHiddenSkip name then files
           else
             if SUPPORTED_EXTENSIONS.contains (pySuffix name) then
               if MAX_FILE_SIZE < size then files
               else files ++ [⟨pfx ++ [name], size, pySuffix name, true⟩]
             else files) (k + 1) := by
  rw [scanEntriesNew_cons]

theorem scanEntriesNew_cons_dir (cancel : ℕ → Bool) (pfx : List String)
    (depth : ℕ) (name : String) (children : FSListE) (rest : FSListE)
    (files : List FileInfo) (k : ℕ) :
    scanEntriesNew cancel pfx depth (.cons (.dir name children) rest) files k =
      if cancel k then (files, k + 1)
      else
        if isHiddenSkip name || DEFAULT_IGNORED_DIRS.contains name then
          scanEntriesNew cancel pfx depth rest files (k + 1)
        else
          scanEntriesNew cancel pfx depth rest
            (scanDirNew cancel (pfx ++ [name]) (depth + 1) children files (k + 1)).1
            (scanDirNew cancel (pfx ++ [name]) (depth + 1) children files (k + 1)).2 := by
  rw [scanEntriesNew_cons]

theorem scanEntriesOld_nil (cancel : ℕ → Bool) (pfx : List String) (depth : ℕ)
    (files : List FileInfo) (k : ℕ) :
    scanEntriesOld cancel pfx depth .nil files k = (files, k) := by
  rw [scanEntriesOld.eq_def]

theorem scanEntriesOld_cons_file (cancel : ℕ → Bool) (pfx : List String)
    (depth : ℕ) (name : String) (size : ℕ) (rest : FSListE)
    (files : List FileInfo) (k : ℕ) :
    scanEntriesOld cancel pfx depth (.cons (.file name size) rest) files k =
      if cancel k then (files, k + 1)
      else
        scanEntriesOld cancel pfx depth rest
          (if isHiddenSkip name then files
           else
             if SUPPORTED_EXTENSIONS_legacy.contains (pySuffix name) then
               if 1000000 < size then files
               else files ++ [⟨pfx ++ [name], size, pySuffix name, true⟩]
             else files) (k + 1) := by
  rw [scanEntriesOld.eq_def]

theorem scanEntriesOld_cons_dir (cancel : ℕ → Bool) (pfx : List String)
    (depth : ℕ) (name : String) (children : FSListE) (rest : FSListE)
    (files : List FileInfo) (k : ℕ) :
    scanEntriesOld cancel pfx depth (.cons (.dir name children) rest) files k =
      if cancel k then (files, k + 1)
      else
        if isHiddenSkip name || DEFAULT_IGNORED_DIRS_legacy.contains name then
          scanEntriesOld cancel pfx depth rest files (k + 1)
        else
          scanEntriesOld cancel pfx depth rest
            (scanDirOld cancel (pfx ++ [name]) (depth + 1) children files (k + 1)).1
            (scanDirOld cancel (pfx ++ [name]) (depth + 1) children files (k + 1)).2 := by
  rw [scanEntriesOld.eq_def]

theorem noNewExtL_nil : noNewExtL .nil = true := by
  rw [noNewExtL.eq_def]

theorem noNewExtL_cons (e : FSEntry) (rest : FSListE) :
    noNewExtL (.cons e rest) = (noNewExtE e && noNewExtL rest) := by
  rw [noNewExtL.eq_def]

theorem noNewExtE_file (name : String) (size : ℕ) :
    noNewExtE (.file name size) =
      !(pySuffix name == ".vue" || pySuffix name == ".svelte") := by
  rw [noNewExtE.eq_def]

theorem noNewExtE_dir (name : String) (children : FSListE) :
    noNewExtE (.dir name children) = noNewExtL children := by
  rw [noNewExtE.eq_def]

theorem contains_legacy_eq (s : String) (h1 : s ≠ ".vue") (h2 : s ≠ ".svelte") :
    SUPPORTED_EXTENSIONS_legacy.contains s = SUPPORTED_EXTENSIONS.contains s := by
  have hsplit : SUPPORTED_EXTENSIONS =
      SUPPORTED_EXTENSIONS_legacy ++ [".vue", ".svelte"] := by decide
  rw [hsplit]
  cases hc : SUPPORTED_EXTENSIONS_legacy.contains s with
  | false =>
    have hmem : s ∉ SUPPORTED_EXTENSIONS_legacy := by simpa using hc
    symm
    simp [hmem, h1, h2]
  | true =>
    have hmem : s ∈ SUPPORTED_EXTENSIONS_legacy := by simpa using hc
    symm
    simp [hmem]

mutual
theorem scanDir_eq (cancel : ℕ → Bool) (pfx : List String) (depth : ℕ)
    (entries : FSListE) (files : List FileInfo) (k : ℕ)
    (h : noNewExtL entries = true) :
    scanDirOld cancel pfx depth entries files k =
      scanDirNew cancel pfx depth entries files k := by
  simp only [scanDirOld, scanDirNew, MAX_SCAN_DEPTH]
  by_cases hc : cancel k
  · simp [hc]
  · simp only [hc, Bool.false_eq_true, if_false]
    by_cases hd : 20 < depth
    · simp [hd]
    · simp only [hd, if_false]
      exact scanEntries_eq cancel pfx depth entries files (k + 1) h

theorem scanEntries_eq (cancel : ℕ → Bool) (pfx : List String) (depth : ℕ)
    (entries : FSListE) (files : List FileInfo) (k : ℕ)
    (h : noNewExtL entries = true) :
    scanEntriesOld cancel pfx depth entries files k =
      scanEntriesNew cancel pfx depth entries files k := by
  cases entries with
  | nil => rw [scanEntriesOld_nil, scanEntriesNew_nil]
  | cons e rest =>
    rw [noNewExtL_cons, Bool.and_eq_true] at h
    obtain ⟨hE, hrest⟩ := h
    cases e with
    | file name size =>
      rw [scanEntriesOld_cons_file, scanEntriesNew_cons_file]
      rw [noNewExtE_file] at hE
      have hne : pySuffix name ≠ ".vue" ∧ pySuffix name ≠ ".svelte" := by
        simpa using hE
      rw [contains_legacy_eq _ hne.1 hne.2]
      by_cases hc : cancel k
      · simp [hc]
      · simp only [hc, Bool.false_eq_true, if_false, MAX_FILE_SIZE]
        exact scanEntries_eq cancel pfx depth rest _ (k + 1) hrest
    | dir name children =>
      rw [scanEntriesOld_cons_dir, scanEntriesNew_cons_dir]
      rw [noNewExtE_dir] at hE
      by_cases hc : cancel k
      · simp [hc]
      · simp only [hc, Bool.false_eq_true, if_false, DEFAULT_IGNORED_DIRS_legacy]
        by_cases h4 : isHiddenSkip name || DEFAULT_IGNORED_DIRS.contains name
        · simp only [h4, if_true]
          exact scanEntries_eq cancel pfx depth rest files (k + 1) hrest
        · simp only [h4, Bool.false_eq_true, if_false]
          rw [scanDir_eq cancel (pfx ++ [name]) (depth + 1) children files (k + 1) hE]
          exact scanEntries_eq cancel pfx depth rest _ _ hrest
end

/-- C10 (amended): on any tree containing no `.vue` or `.svelte` file — the
two extensions present only in the current supported set — the legacy
scanner (`core/scanner.py`) and the current scanner (`scanner.py`) return
the same file records, the same `total_size` and the same
`estimated_tokens`, every record carrying `included = true`. -/
theorem scanner_equiv_no_vue (cancel : ℕ → Bool) (tree : FSListE)
    (h : noNewExtL tree = true) :
    (scanOldTop cancel tree).files = (scanNewTop cancel tree).files
    ∧ (scanOldTop cancel tree).total_size = (scanNewTop cancel tree).total_size
    ∧ (scanOldTop cancel tree).estimated_tokens = (scanNewTop cancel tree).estimated_tokens
    ∧ (∀ r ∈ (scanNewTop cancel tree).files, r.included = true) := by
  have heq : scanDirOld cancel [] 0 tree [] 0 = scanDirNew cancel [] 0 tree [] 0 :=
    scanDir_eq cancel [] 0 tree [] 0 h
  have hinc : ∀ r ∈ (scanNewTop cancel tree).files, r.included = true := by
    intro r hr
    have hmain : ∀ x ∈ (scanDirNew cancel [] 0 tree [] 0).1, ScanRecOK x :=
      scanDirNew_inv cancel [] 0 tree [] 0 (by simp) (by simp)
    unfold scanNewTop at hr
    by_cases hcan : cancel (scanDirNew cancel [] 0 tree [] 0).2
    · rw [if_pos hcan] at hr
      simp at hr
    · rw [if_neg hcan] at hr
      exact (hmain r hr).2.2.1
  refine ⟨?_, ?_, ?_, hinc⟩ <;>
    · unfold scanOldTop scanNewTop
      rw [heq]
      by_cases hcan : cancel (scanDirNew cancel [] 0 tree [] 0).2
      · rw [if_pos hcan, if_pos hcan]
      · rw [if_neg hcan, if_neg hcan]

/-- C10 witness: the equivalence at the example tree, which has no `.vue`
or `.svelte` file. -/
theorem scanner_equiv_no_vue_w :
    (scanOldTop neverCancel demoTree).files = (scanNewTop neverCancel demoTree).files
    ∧ (scanOldTop neverCancel demoTree).total_size = (scanNewTop neverCancel demoTree).total_size
    ∧ (scanOldTop neverCancel demoTree).estimated_tokens
        = (scanNewTop neverCancel demoTree).estimated_tokens
    ∧ (∀ r ∈ (scanNewTop neverCancel demoTree).files, r.included = true) :=
  scanner_equiv_no_vue neverCancel demoTree (by
    simp only [demoTree, noNewExtL_cons, noNewExtL_nil, noNewExtE_file, noNewExtE_dir,
      show pySuffix "main.py" = ".py" by decide,
      show pySuffix "dep.js" = ".js" by decide,
      show pySuffix "image.png" = ".png" by decide]
    decide)

theorem vueTree_scan_eval_new :
    scanDirNew neverCancel [] 0 vueTree [] 0 =
      ([FileInfo.mk ["app.vue"] 8 ".vue" true], 2) := by
  simp only [vueTree, scanDirNew, scanEntriesNew_cons_file, scanEntriesNew_nil, neverCancel,
    show pySuffix "app.vue" = ".vue" by decide,
    show isHiddenSkip "app.vue" = false by decide,
    show SUPPORTED_EXTENSIONS.contains ".vue" = true by decide,
    show (MAX_FILE_SIZE < 8) = False by decide,
    show (MAX_SCAN_DEPTH < 0) = False by decide]
  norm_num

theorem vueTree_scan_eval_old :
    scanDirOld neverCancel [] 0 vueTree [] 0 = ([], 2) := by
  simp only [vueTree, scanDirOld, scanEntriesOld_cons_file, scanEntriesOld_nil, neverCancel,
    show pySuffix "app.vue" = ".vue" by decide,
    show isHiddenSkip "app.vue" = false by decide,
    show SUPPORTED_EXTENSIONS_legacy.contains ".vue" = false by decide,
    show (MAX_SCAN_DEPTH < 0) = False by decide]
  norm_num

/-- C10 counterexample: on a tree with one `app.vue` file the current
scanner returns the file while the legacy scanner returns nothing — the two
scanners are not equivalent. -/
theorem scanner_equiv_cex :
    (scanNewTop neverCancel vueTree).files = [FileInfo.mk ["app.vue"] 8 ".vue" true]
    ∧ (scanOldTop neverCancel vueTree).files = []
    ∧ (scanNewTop neverCancel vueTree).total_size = 8
    ∧ (scanOldTop neverCancel vueTree).total_size = 0 := by
  unfold scanNewTop scanOldTop
  rw [vueTree_scan_eval_new, vueTree_scan_eval_old]
  norm_num [neverCancel]

theorem scanForDocs_lookup (isRoot : Bool) (dirRel : List String)
    (entries : List DocEntry) (acc : DocMap) (name : String) :
    scanForDocs isRoot dirRel entries acc name =
      (match lastRegistered isRoot name entries with
       | some e => some (mkExistingDoc dirRel e)
       | none => acc name) := by
  induction entries generalizing acc with
  | nil => simp [scanForDocs, lastRegistered]
  | cons e rest ih =>
    simp only [scanForDocs, lastRegistered]
    rw [ih]
    cases hl : lastRegistered isRoot name rest with
    | some e2 => simp [hl]
    | none =>
      simp only [hl]
      by_cases hre : registersDoc isRoot e
      · by_cases hn : e.name = name
        · simp [hre, hn]
        · simp [hre, hn, Ne.symm hn]
      · simp [hre]

/-- C9 (amended): a file in a searched directory is registered iff it is a
regular file whose lowercased name ends in `.md` and — in the root only —
its name *exactly* matches, or its fully-uppercased name exactly matches, a
known generated-artifact or common project-doc name (`name in SET or
name.upper() in SET`, not full case-insensitive matching); inside a
documentation subfolder registration is unconditional; and the registry
keyed by file name keeps the latest registration, later detections
overwriting earlier ones (`lastRegistered`). -/
theorem detect_docs_registration_spec (entries : List DocEntry) (acc : DocMap)
    (dirRel : List String) (name : String) :
    (scanForDocs true dirRel entries acc name =
      (match lastRegistered true name entries with
       | some e => some (mkExistingDoc dirRel e)
       | none => acc name))
    ∧ (scanForDocs false dirRel entries acc name =
      (match lastRegistered false name entries with
       | some e => some (mkExistingDoc dirRel e)
       | none => acc name))
    ∧ (∀ e : DocEntry,
        registersDoc true e = (e.isFile && endsMd e.name && isKnownDocName e.name))
    ∧ (∀ e : DocEntry, registersDoc false e = (e.isFile && endsMd e.name)) := by
  refine ⟨scanForDocs_lookup true dirRel entries acc name,
    scanForDocs_lookup false dirRel entries acc name, ?_, ?_⟩
  · intro e
    simp [registersDoc]
  · intro e
    simp [registersDoc]

/-- C9 counterexample: `readme.md` in the scan root is *not* registered,
although it matches `README.md` (a common project-doc name)
case-insensitively — the code only tries the exact and the fully-uppercased
name, and `"readme.md".upper() = "README.MD"` is not in the set. -/
theorem detect_docs_registration_cex :
    detectExistingDocs [⟨"readme.md", true, some "x"⟩] [] "readme.md" = none
    ∧ pyLower ("readme.md".data) = pyLower ("README.md".data)
    ∧ "README.md" ∈ COMMON_DOC_FILES
    ∧ registersDoc true ⟨"readme.md", true, some "x"⟩ = false := by
  refine ⟨?_, by decide, by decide, by decide⟩
  simp [detectExistingDocs, scanForDocs,
    show registersDoc true ⟨"readme.md", true, some "x"⟩ = false by decide]
